import Mathlib

/-!
Shallow embedding of `lib/charms/ovn.py` (charm-layer-ovn).

Python strings are modelled as lists of characters (`PyStr`); the Python
string operations used by the source (startswith, lstrip, lower, replace,
split with and without a separator) are reproduced as structural
recursions over character lists.  The external process boundary
(`subprocess.run`) is modelled by giving each parsing function the text
(as a list of lines) that the external tool produced, and by an explicit
`RunResult` type distinguishing success, a non-zero exit
(`subprocess.CalledProcessError`) and a missing executable
(`FileNotFoundError`) — in Python the latter two are distinct exception
classes.  A Python exception escaping a function is modelled by `Option`:
`none` means the call raised.
-/

abbrev PyStr := List Char

/-- Python whitespace characters recognised by `str.split()`/`str.lstrip()`
(ASCII subset, which is all that occurs in the inputs at hand). -/
def pyIsSpace (c : Char) : Bool :=
  c = ' ' ∨ c = '\t' ∨ c = '\n' ∨ c = '\r' ∨ c = '\x0b' ∨ c = '\x0c'

/-- Python `line.startswith(' ')`: the first character is a space
(specifically the space character, not arbitrary whitespace). -/
def pyStartsWithSpace : PyStr → Bool
  | [] => false
  | c :: _ => c = ' '

/-- Python `s.lstrip()`: drop leading whitespace. -/
def pyLStrip (s : PyStr) : PyStr := s.dropWhile pyIsSpace

/-- Helper for `pySplitWS`: accumulate the current token (reversed). -/
def pySplitWSAux : PyStr → PyStr → List PyStr
  | [], acc => if acc = [] then [] else [acc.reverse]
  | c :: rest, acc =>
    if pyIsSpace c then
      if acc = [] then pySplitWSAux rest []
      else acc.reverse :: pySplitWSAux rest []
    else pySplitWSAux rest (c :: acc)

/-- Python `s.split()` with no argument: split on runs of whitespace,
discarding empty tokens. -/
def pySplitWS (s : PyStr) : List PyStr := pySplitWSAux s []

/-- Python `s.split(sep, 1)` for a single-character separator: the part
before the first occurrence, and `some` remainder when the separator
occurs (`none` when it does not). -/
def pySplitFirst (sep : Char) : PyStr → PyStr × Option PyStr
  | [] => ([], none)
  | c :: rest =>
    if c = sep then ([], some rest)
    else
      let p := pySplitFirst sep rest
      (c :: p.1, p.2)

/-- Key normalisation of `cluster_status`: `k.lower().replace(' ', '_')`
(the keys at hand are ASCII, where `Char.toLower` agrees with Python). -/
def pyNormKey (k : PyStr) : PyStr :=
  (k.map Char.toLower).map (fun c => if c = ' ' then '_' else c)

/-- The source's `v.replace('(', '').replace(')', '')`: delete every
parenthesis character. -/
def pyStripParens (v : PyStr) : PyStr :=
  (v.filter (fun c => !(c = '('))).filter (fun c => !(c = ')'))

/-- Value stored in the status dictionary built by `cluster_status`: a
plain string, a list of strings (continuation accumulation), or the tuple
produced by `tuple(v.split())` for the identifier keys. -/
inductive SVal where
  | str (s : PyStr)
  | list (xs : List PyStr)
  | tup (xs : List PyStr)
deriving DecidableEq, Repr

/-- Python dict assignment `d[k] = v`: replace in place when the key is
present, otherwise add at the end (insertion order preserved). -/
def dictSet (d : List (PyStr × SVal)) (k : PyStr) (v : SVal) : List (PyStr × SVal) :=
  match d with
  | [] => [(k, v)]
  | e :: rest => if e.1 = k then (k, v) :: rest else e :: dictSet rest k v

/-- Python `d.get(k)`: `some` value when present, `none` when absent. -/
def dictGet (d : List (PyStr × SVal)) (k : PyStr) : Option SVal :=
  match d with
  | [] => none
  | e :: rest => if e.1 = k then some e.2 else dictGet rest k

/-- Python `d[k].append(s)`: succeeds only when the key is present and its
value is a list (`str` and `tuple` have no `append`; a missing key raises
`KeyError`, a non-list value raises `AttributeError`). -/
def dictAppend (d : List (PyStr × SVal)) (k : PyStr) (s : PyStr) :
    Option (List (PyStr × SVal)) :=
  match d with
  | [] => none
  | e :: rest =>
    if e.1 = k then
      match e.2 with
      | SVal.list xs => some ((e.1, SVal.list (xs ++ [s])) :: rest)
      | _ => none
    else
      (dictAppend rest k s).map (fun d2 => e :: d2)

/-- State of the `cluster_status` parsing loop: the dictionary built so
far and the current-field cursor `k` (the empty string when unset). -/
structure ParseState where
  status : List (PyStr × SVal)
  k : PyStr
deriving DecidableEq, Repr

def clusterIdKey : PyStr := "cluster_id".toList
def serverIdKey : PyStr := "server_id".toList

/-- One iteration of the `for line in ...` loop of `cluster_status`
(ovn.py lines 79-93).  `none` models a raised exception. -/
def procLine (st : ParseState) (line : PyStr) : Option ParseState :=
  if st.k ≠ [] ∧ pyStartsWithSpace line = true then
    (dictAppend st.status st.k (pyLStrip line)).map (fun d => ⟨d, st.k⟩)
  else if line.contains ':' then
    match pySplitFirst ':' line with
    | (k0, some v) =>
      let k := pyNormKey k0
      if v ≠ [] then
        if k = clusterIdKey ∨ k = serverIdKey then
          some ⟨dictSet st.status k (SVal.tup (pySplitWS (pyStripParens v))), k⟩
        else
          some ⟨dictSet st.status k (SVal.str (pyLStrip v)), k⟩
      else
        some ⟨dictSet st.status k (SVal.list []), k⟩
    | (_, none) => none
  else
    some st

/-- Run the parsing loop over the lines of the tool's output in order. -/
def runLines (st : ParseState) : List PyStr → Option ParseState
  | [] => some st
  | l :: ls =>
    match procLine st l with
    | none => none
    | some st2 => runLines st2 ls

/-- Embedding of `cluster_status` (ovn.py lines 57-94) applied to the
lines of the text returned by the external `ovs-appctl` invocation:
parse them into the status dictionary.  `none` models an exception
escaping the loop body. -/
def cluster_status (lines : List PyStr) : Option (List (PyStr × SVal)) :=
  (runLines ⟨[], []⟩ lines).map ParseState.status

def OVS_RUNDIR : PyStr := "/var/run/openvswitch".toList

/-- Target resolution of `ovs_appctl` (ovn.py lines 52-54): the two
well-known short names are mapped to their control-socket paths
(`os.path.join` of the run directory with `target + '.ctl'`, where the
second component is relative, so join inserts a single slash); every
other target string is passed through verbatim. -/
def ovs_appctl_target (target : PyStr) : PyStr :=
  if target = "ovnnb_db".toList ∨ target = "ovnsb_db".toList then
    OVS_RUNDIR ++ '/' :: (target ++ ".ctl".toList)
  else
    target

/-- The `schema_map.get(target)` lookup of `cluster_status`
(ovn.py lines 69-72). -/
def schema_map_get (target : PyStr) : Option PyStr :=
  if target = "ovnnb_db".toList then some "OVN_Northbound".toList
  else if target = "ovnsb_db".toList then some "OVN_Southbound".toList
  else none

/-- The schema argument `schema or schema_map.get(target)` passed to the
tool by `cluster_status` (ovn.py line 78).  Python `or` tests
truthiness: `None` and the empty string both fall through to the map
lookup. -/
def cluster_status_schema (schema : Option PyStr) (target : PyStr) : Option PyStr :=
  match schema with
  | none => schema_map_get target
  | some s => if s = [] then schema_map_get target else some s

/-- Outcome of the underlying `subprocess.run` invocation: captured
output lines on success; `subprocess.CalledProcessError` on a non-zero
exit; `FileNotFoundError` (a distinct exception class, not a subclass of
`CalledProcessError`) when the executable cannot be found. -/
inductive RunResult where
  | ok (lines : List PyStr)
  | calledProcessError
  | fileNotFoundError
deriving DecidableEq, Repr

/-- The comparison `status.get('leader') == 'self'` of
`is_cluster_leader` (ovn.py line 109): Python equality of the looked-up
value with the string literal, false for an absent key and for any
non-string value. -/
def leaderCheck (st : List (PyStr × SVal)) : Bool :=
  match dictGet st "leader".toList with
  | some (SVal.str s) => s = "self".toList
  | _ => false

/-- Embedding of `is_cluster_leader` (ovn.py lines 97-111) as a function
of the invocation outcome.  The `try` block catches exactly
`subprocess.CalledProcessError` and returns `False`; a
`FileNotFoundError` is not caught and propagates (`none`), as does any
exception raised while parsing. -/
def is_cluster_leader (r : RunResult) : Option Bool :=
  match r with
  | RunResult.ok lines => (cluster_status lines).map leaderCheck
  | RunResult.calledProcessError => some false
  | RunResult.fileNotFoundError => none

/-- Raw JSON value appearing in a cell of the query tool's output: one of
the JSON scalars, or an array (`isinstance(col, list)` in the source
distinguishes exactly arrays). -/
inductive RawVal where
  | str (s : PyStr)
  | num (n : Int)
  | boolean (b : Bool)
  | null
  | seq (xs : List RawVal)

/-- Cell decoding of `SimpleOVSDB._find_tbl` (ovn.py lines 242-246): an
array contributes `col[1]` (raising `IndexError`, modelled `none`, when
it has fewer than two elements); every other value passes through. -/
def decodeCol : RawVal → Option RawVal
  | RawVal.seq xs => xs.get? 1
  | v => some v

/-- The inner `for col in row` loop of `_find_tbl`: decode the cells in
order, failing at the first cell whose decoding raises. -/
def decodeRowVals : List RawVal → Option (List RawVal)
  | [] => some []
  | c :: rest =>
    match decodeCol c with
    | none => none
    | some v =>
      match decodeRowVals rest with
      | none => none
      | some vs => some (v :: vs)

/-- Observable behaviour of the `_find_tbl` generator on one table:
the rows it yields before finishing or raising, and whether it raised. -/
structure FindResult where
  rows : List (List (PyStr × RawVal))
  failed : Bool

/-- Embedding of the row loop of `SimpleOVSDB._find_tbl` (ovn.py lines
240-247), shared by `__iter__` (list) and `find`: for each row of
`data`, decode the cells and yield `dict(zip(headings, values))`
(modelled as the zip association list, which truncates at the shorter of
the two lists).  A row whose decoding raises stops the generator after
the preceding rows have already been yielded. -/
def find_tbl (headings : List PyStr) : List (List RawVal) → FindResult
  | [] => ⟨[], false⟩
  | r :: rs =>
    match decodeRowVals r with
    | none => ⟨[], true⟩
    | some vals =>
      let rest := find_tbl headings rs
      ⟨headings.zip vals :: rest.rows, rest.failed⟩

/-- Well-formedness of a raw cell per the wire format: scalars, and
tagged pairs of exactly two elements. -/
def wfVal : RawVal → Bool
  | RawVal.seq xs => xs.length = 2
  | _ => true

/-! Helper lemmas shared by the claim theorems. -/

theorem runLines_append (st : ParseState) (l1 l2 : List PyStr) :
    runLines st (l1 ++ l2) = (runLines st l1).bind (fun st2 => runLines st2 l2) := by
  induction l1 generalizing st with
  | nil => simp [runLines]
  | cons l ls ih =>
    simp only [List.cons_append, runLines]
    cases procLine st l with
    | none => simp
    | some st2 => simpa using ih st2

theorem dictAppend_of_nonlist (d : List (PyStr × SVal)) (k : PyStr) (s : PyStr)
    (v : SVal) (hget : dictGet d k = some v) (hnl : ∀ xs, v ≠ SVal.list xs) :
    dictAppend d k s = none := by
  induction d with
  | nil => simp [dictGet] at hget
  | cons e rest ih =>
    obtain ⟨ek, ev⟩ := e
    by_cases he : ek = k
    · simp only [dictGet, if_pos he] at hget
      obtain rfl : ev = v := Option.some.inj hget
      cases hv : ev with
      | list xs => exact absurd hv (hnl xs)
      | str s2 => subst hv; simp [dictAppend, if_pos he]
      | tup xs => subst hv; simp [dictAppend, if_pos he]
    · simp only [dictGet, if_neg he] at hget
      simp [dictAppend, if_neg he, ih hget]

theorem dictAppend_dictSet_list (d : List (PyStr × SVal)) (k : PyStr)
    (xs : List PyStr) (s : PyStr) :
    dictAppend (dictSet d k (SVal.list xs)) k s =
      some (dictSet d k (SVal.list (xs ++ [s]))) := by
  induction d with
  | nil => simp [dictSet, dictAppend]
  | cons e rest ih =>
    by_cases he : e.1 = k
    · simp [dictSet, dictAppend, if_pos he]
    · simp [dictSet, dictAppend, if_neg he, ih]

theorem pySplitFirst_of_no_sep (sep : Char) (xs ys : PyStr)
    (hx : xs.contains sep = false) :
    pySplitFirst sep (xs ++ sep :: ys) = (xs, some ys) := by
  induction xs with
  | nil => simp [pySplitFirst]
  | cons x rest ih =>
    simp only [List.contains_cons, Bool.or_eq_false_iff, beq_eq_false_iff_ne] at hx
    simp [pySplitFirst, if_neg (Ne.symm hx.1), ih hx.2]

theorem contains_append_cons (xs ys : PyStr) (c : Char) :
    (xs ++ c :: ys).contains c = true := by
  induction xs with
  | nil => simp [List.contains_cons]
  | cons x rest ih => simp [List.contains_cons, ih]

theorem procLine_keyline (st : ParseState) (name v : PyStr)
    (hnc : ¬(st.k ≠ [] ∧ pyStartsWithSpace (name ++ ':' :: v) = true))
    (hname : name.contains ':' = false) :
    procLine st (name ++ ':' :: v) =
      (if v ≠ [] then
        if pyNormKey name = clusterIdKey ∨ pyNormKey name = serverIdKey then
          some ⟨dictSet st.status (pyNormKey name)
            (SVal.tup (pySplitWS (pyStripParens v))), pyNormKey name⟩
        else
          some ⟨dictSet st.status (pyNormKey name)
            (SVal.str (pyLStrip v)), pyNormKey name⟩
      else
        some ⟨dictSet st.status (pyNormKey name) (SVal.list []), pyNormKey name⟩) := by
  rw [procLine, if_neg hnc, if_pos (contains_append_cons name v ':'),
    pySplitFirst_of_no_sep ':' name v hname]

theorem runLines_space_conts (conts : List PyStr) (d : List (PyStr × SVal))
    (k : PyStr) (xs : List PyStr) (hk : k ≠ [])
    (hc : ∀ c ∈ conts, pyStartsWithSpace c = true) :
    runLines ⟨dictSet d k (SVal.list xs), k⟩ conts =
      some ⟨dictSet d k (SVal.list (xs ++ conts.map pyLStrip)), k⟩ := by
  induction conts generalizing xs with
  | nil => simp [runLines]
  | cons c cs ih =>
    have hcs : pyStartsWithSpace c = true := hc c (List.mem_cons_self c cs)
    have hp : procLine ⟨dictSet d k (SVal.list xs), k⟩ c =
        some ⟨dictSet d k (SVal.list (xs ++ [pyLStrip c])), k⟩ := by
      simp [procLine, if_pos (And.intro hk hcs), dictAppend_dictSet_list]
    simp only [runLines, hp]
    rw [ih (xs ++ [pyLStrip c]) (fun x hx => hc x (List.mem_cons_of_mem c hx))]
    simp

theorem get1_of_length_two (xs : List RawVal) (hlen : xs.length = 2) :
    ∃ w, xs.get? 1 = some w := by
  match xs, hlen with
  | [a, b], _ => exact ⟨b, rfl⟩

theorem decodeRowVals_of_wf (row : List RawVal)
    (hwf : ∀ v ∈ row, wfVal v = true) :
    ∃ vals, decodeRowVals row = some vals ∧ vals.length = row.length := by
  induction row with
  | nil => exact ⟨[], rfl, rfl⟩
  | cons c rest ih =>
    obtain ⟨vals, hv, hvl⟩ := ih (fun x hx => hwf x (List.mem_cons_of_mem c hx))
    have hc := hwf c (List.mem_cons_self c rest)
    have : ∃ w, decodeCol c = some w := by
      cases c with
      | seq xs =>
        simp only [wfVal, decide_eq_true_eq] at hc
        exact get1_of_length_two xs hc
      | str s => exact ⟨RawVal.str s, rfl⟩
      | num n => exact ⟨RawVal.num n, rfl⟩
      | boolean b => exact ⟨RawVal.boolean b, rfl⟩
      | null => exact ⟨RawVal.null, rfl⟩
    obtain ⟨w, hw⟩ := this
    exact ⟨w :: vals, by simp [decodeRowVals, hw, hv], by simp [hvl]⟩

/-- C1: for every well-formed query-tool output (each row of data as long
as the headings, each cell a scalar or a two-element tagged pair),
iterating the table — list() / iteration and find with any condition all
run the same row loop of `_find_tbl` — yields exactly as many rows as
`data` has, each row keyed by exactly the headings in order with the
decoded values positionally aligned; empty data yields the empty
sequence of rows, not an error. -/
theorem C1_find_tbl_wellformed_rows (h : List PyStr) (d : List (List RawVal))
    (hlen : ∀ r ∈ d, r.length = h.length)
    (hwf : ∀ r ∈ d, ∀ v ∈ r, wfVal v = true) :
    (find_tbl h d).failed = false ∧
    (find_tbl h d).rows.length = d.length ∧
    (∀ row ∈ (find_tbl h d).rows, row.map Prod.fst = h) ∧
    (find_tbl h d).rows =
      d.map (fun r => h.zip ((decodeRowVals r).getD [])) ∧
    find_tbl h [] = ⟨[], false⟩ := by
  induction d with
  | nil => exact ⟨rfl, rfl, by simp [find_tbl], rfl, rfl⟩
  | cons r rs ih =>
    obtain ⟨vals, hv, hvl⟩ :=
      decodeRowVals_of_wf r (hwf r (List.mem_cons_self r rs))
    have hr : r.length = h.length := hlen r (List.mem_cons_self r rs)
    obtain ⟨ih1, ih2, ih3, ih4, -⟩ :=
      ih (fun x hx => hlen x (List.mem_cons_of_mem r hx))
        (fun x hx => hwf x (List.mem_cons_of_mem r hx))
    have hfst : (h.zip vals).map Prod.fst = h :=
      List.map_fst_zip h vals (by rw [hvl, hr])
    refine ⟨by simp [find_tbl, hv, ih1], by simp [find_tbl, hv, ih2], ?_,
      by simp [find_tbl, hv, ih4], rfl⟩
    intro row hrow
    simp only [find_tbl, hv] at hrow
    rcases List.mem_cons.mp hrow with hrow | hrow
    · rw [hrow]; exact hfst
    · exact ih3 row hrow

/-- C1 witness: the two-column scenario output decodes to one row whose
keys are exactly the headings. -/
theorem C1_find_tbl_wellformed_rows_witness :
    (find_tbl ["name".toList, "_uuid".toList]
      [[RawVal.str "br-int".toList,
        RawVal.seq [RawVal.str "uuid".toList, RawVal.str "1234".toList]]]).failed
      = false ∧
    (find_tbl ["name".toList, "_uuid".toList]
      [[RawVal.str "br-int".toList,
        RawVal.seq [RawVal.str "uuid".toList, RawVal.str "1234".toList]]]).rows.length
      = 1 := by
  obtain ⟨h1, h2, -⟩ := C1_find_tbl_wellformed_rows
    ["name".toList, "_uuid".toList]
    [[RawVal.str "br-int".toList,
      RawVal.seq [RawVal.str "uuid".toList, RawVal.str "1234".toList]]]
    (by decide) (by decide)
  exact ⟨h1, h2⟩

/-- C2: a raw cell shaped as a two-element sequence decodes to its second
element unchanged (whatever structure that payload has), every scalar
cell decodes to itself, and the concrete scenario output with headings
name and _uuid and one row decodes to the expected single row. -/
theorem C2_decode_tag_payload :
    (∀ t p, decodeCol (RawVal.seq [t, p]) = some p) ∧
    (∀ s, decodeCol (RawVal.str s) = some (RawVal.str s)) ∧
    (∀ n, decodeCol (RawVal.num n) = some (RawVal.num n)) ∧
    (∀ b, decodeCol (RawVal.boolean b) = some (RawVal.boolean b)) ∧
    decodeCol RawVal.null = some RawVal.null ∧
    find_tbl ["name".toList, "_uuid".toList]
      [[RawVal.str "br-int".toList,
        RawVal.seq [RawVal.str "uuid".toList, RawVal.str "1234".toList]]] =
      ⟨[[("name".toList, RawVal.str "br-int".toList),
         ("_uuid".toList, RawVal.str "1234".toList)]], false⟩ :=
  ⟨fun _ _ => rfl, fun _ => rfl, fun _ => rfl, fun _ => rfl, rfl, rfl⟩

/-- C3 counterexample: on headings [a] and data [[x], [[]]] the row loop
yields the first decoded row and only then fails on the second row (the
empty tagged sequence), so a failure does occur after a row has been
yielded, contradicting the all-or-nothing claim. -/
theorem C3_counterexample_partial_yield :
    (find_tbl ["a".toList] [[RawVal.str "x".toList], [RawVal.seq []]]).failed
      = true ∧
    (find_tbl ["a".toList] [[RawVal.str "x".toList], [RawVal.seq []]]).rows =
      [[("a".toList, RawVal.str "x".toList)]] :=
  ⟨rfl, rfl⟩

/-- C3 amended: list()/find yield the decoded rows of the longest prefix
of data whose rows all decode, and fail exactly when some row fails to
decode; invocation and JSON-parsing failures happen before the loop, but
a row-decoding failure (a tagged sequence shorter than two elements)
occurs only after all rows of the preceding prefix have been yielded. -/
theorem C3_amended_prefix_yield (h : List PyStr) (d : List (List RawVal)) :
    (find_tbl h d).rows =
      (d.takeWhile (fun r => (decodeRowVals r).isSome)).map
        (fun r => h.zip ((decodeRowVals r).getD [])) ∧
    (find_tbl h d).failed = d.any (fun r => (decodeRowVals r).isNone) := by
  induction d with
  | nil => exact ⟨rfl, rfl⟩
  | cons r rs ih =>
    cases hv : decodeRowVals r with
    | none => simp [find_tbl, hv, List.takeWhile_cons, List.any_cons]
    | some vals =>
      simp [find_tbl, hv, List.takeWhile_cons, List.any_cons, ih.1, ih.2]

/-- C9: the row decoder classifies a cell as tagged merely by its being a
sequence: a sequence of length zero or one makes decoding fail (it is
not passed through), while a sequence with two or more elements decodes
to its element at index 1, discarding everything else. -/
theorem C9_decode_by_arity :
    decodeCol (RawVal.seq []) = none ∧
    (∀ a, decodeCol (RawVal.seq [a]) = none) ∧
    (∀ a b rest, decodeCol (RawVal.seq (a :: b :: rest)) = some b) :=
  ⟨rfl, fun _ => rfl, fun _ _ _ => rfl⟩

theorem leaderCheck_eq_true_iff (st : List (PyStr × SVal)) :
    leaderCheck st = true ↔
      dictGet st "leader".toList = some (SVal.str "self".toList) := by
  unfold leaderCheck
  cases hg : dictGet st "leader".toList with
  | none => simp
  | some v =>
    cases v with
    | str s => simp
    | list xs => simp
    | tup xs => simp

/-- C4: on a status report that parses, is_cluster_leader answers true
exactly when the parsed record's leader field is the string self, and
false for every other value of that field, including the field being
absent (Python dict get returns None, which compares unequal to self). -/
theorem C4_is_cluster_leader_iff (lines : List PyStr) (st : List (PyStr × SVal))
    (hp : cluster_status lines = some st) :
    (is_cluster_leader (RunResult.ok lines) = some true ↔
      dictGet st "leader".toList = some (SVal.str "self".toList)) ∧
    (dictGet st "leader".toList ≠ some (SVal.str "self".toList) →
      is_cluster_leader (RunResult.ok lines) = some false) := by
  have hil : is_cluster_leader (RunResult.ok lines) = some (leaderCheck st) := by
    simp [is_cluster_leader, hp]
  have hiff := leaderCheck_eq_true_iff st
  constructor
  · rw [hil]
    constructor
    · intro hq
      exact hiff.mp (Option.some.inj hq)
    · intro hq
      rw [hiff.mpr hq]
  · intro hne
    rw [hil]
    cases hlc : leaderCheck st with
    | false => rfl
    | true => exact absurd (hiff.mp hlc) hne

/-- C4 witness: a one-field report with leader self parses and yields a
positive leadership answer. -/
theorem C4_is_cluster_leader_iff_witness :
    cluster_status ["Leader: self".toList] =
      some [("leader".toList, SVal.str "self".toList)] ∧
    is_cluster_leader (RunResult.ok ["Leader: self".toList]) = some true := by
  have hp : cluster_status ["Leader: self".toList] =
      some [("leader".toList, SVal.str "self".toList)] := by decide
  exact ⟨hp, (C4_is_cluster_leader_iff _ _ hp).1.mpr (by decide)⟩

/-- C5 counterexample: when the invoked command cannot be found the
underlying call raises FileNotFoundError, which is not a
subprocess.CalledProcessError, so the except clause of
is_cluster_leader does not catch it: the call raises (modelled none)
instead of returning false, contradicting the claim that every failure
of the invocation is converted to false. -/
theorem C5_counterexample_not_found_raises :
    is_cluster_leader RunResult.fileNotFoundError = none ∧
    is_cluster_leader RunResult.fileNotFoundError ≠ some false := by
  exact ⟨rfl, by decide⟩

/-- C5 amended: is_cluster_leader returns false, without raising, when
the invocation exits non-zero (subprocess.CalledProcessError, the only
exception class the except clause names); a command-not-found failure
(FileNotFoundError) is not caught and propagates to the caller. -/
theorem C5_amended_catches_called_process_error_only :
    is_cluster_leader RunResult.calledProcessError = some false ∧
    is_cluster_leader RunResult.fileNotFoundError = none :=
  ⟨rfl, rfl⟩

/-- C6 counterexample: a continuation check in the source is
line.startswith(' '), a single space character, not general whitespace:
after a Servers: line, a following line indented with a tab is a line
beginning with whitespace, yet it is not appended — it matches neither
rule and is ignored, leaving the servers field empty, contradicting the
claim that every subsequent line beginning with whitespace is appended. -/
theorem C6_counterexample_tab_continuation :
    pyIsSpace '\t' = true ∧
    cluster_status ["Servers:".toList, '\t' :: "srv-a".toList] =
      some [("servers".toList, SVal.list [])] ∧
    cluster_status ["Servers:".toList, '\t' :: "srv-a".toList] ≠
      some [("servers".toList, SVal.list ["srv-a".toList])] :=
  ⟨by decide, by decide, by decide⟩

/-- C6 amended: a line whose key has an empty remainder after the colon
initializes that field as an empty list, and every subsequent line
beginning with a space character (the source tests startswith of a
single space, so space indentation specifically, not a tab) has its
leading whitespace stripped and is appended to that list in order,
from any parser state in which the key line is not itself treated as a
continuation. -/
theorem C6_amended_space_continuations (d0 : List (PyStr × SVal)) (k0 : PyStr)
    (name : PyStr) (conts : List PyStr)
    (hnc : ¬(k0 ≠ [] ∧ pyStartsWithSpace (name ++ [':']) = true))
    (hname : name.contains ':' = false)
    (hk : pyNormKey name ≠ [])
    (hc : ∀ c ∈ conts, pyStartsWithSpace c = true) :
    runLines ⟨d0, k0⟩ ((name ++ [':']) :: conts) =
      some ⟨dictSet d0 (pyNormKey name) (SVal.list (conts.map pyLStrip)),
        pyNormKey name⟩ := by
  have hkey : procLine ⟨d0, k0⟩ (name ++ [':']) =
      some ⟨dictSet d0 (pyNormKey name) (SVal.list []), pyNormKey name⟩ := by
    rw [procLine_keyline ⟨d0, k0⟩ name [] hnc hname]
    simp
  simp only [runLines, hkey]
  have hrest := runLines_space_conts conts d0 (pyNormKey name) [] hk hc
  simpa using hrest

/-- C6 amended witness: the Servers: scenario with two space-indented
lines accumulates both entries in order. -/
theorem C6_amended_space_continuations_witness :
    cluster_status ["Servers:".toList, " srv-a".toList, " srv-b".toList] =
      some [("servers".toList, SVal.list ["srv-a".toList, "srv-b".toList])] := by
  have h := C6_amended_space_continuations [] [] "Servers".toList
    [" srv-a".toList, " srv-b".toList] (by decide) (by decide) (by decide)
    (by decide)
  rw [cluster_status,
    show ("Servers:".toList : PyStr) = "Servers".toList ++ [':'] from by decide,
    h]
  decide

/-- C7: a colon-bearing line whose normalized key is cluster_id or
server_id has its non-empty remainder decoded by deleting parentheses
and splitting on whitespace — yielding the 2-tuple (value, shortform)
whenever that split has exactly two tokens — while a line with any
other key stores the left-stripped remainder as a plain string. -/
theorem C7_identifier_keyline_decoding (d0 : List (PyStr × SVal)) (k0 : PyStr)
    (name v : PyStr)
    (hnc : ¬(k0 ≠ [] ∧ pyStartsWithSpace (name ++ ':' :: v) = true))
    (hname : name.contains ':' = false)
    (hv : v ≠ []) :
    ((pyNormKey name = clusterIdKey ∨ pyNormKey name = serverIdKey) →
      ∀ a b, pySplitWS (pyStripParens v) = [a, b] →
        procLine ⟨d0, k0⟩ (name ++ ':' :: v) =
          some ⟨dictSet d0 (pyNormKey name) (SVal.tup [a, b]),
            pyNormKey name⟩) ∧
    (pyNormKey name ≠ clusterIdKey → pyNormKey name ≠ serverIdKey →
      procLine ⟨d0, k0⟩ (name ++ ':' :: v) =
        some ⟨dictSet d0 (pyNormKey name) (SVal.str (pyLStrip v)),
          pyNormKey name⟩) := by
  have hkey := procLine_keyline ⟨d0, k0⟩ name v hnc hname
  constructor
  · intro hid a b hsplit
    rw [hkey, if_pos hv, if_pos hid, hsplit]
  · intro h1 h2
    rw [hkey, if_pos hv, if_neg (by tauto)]

/-- C7 witness: the report line Cluster id: abcd1234 (abcd) parses to
the 2-tuple (abcd1234, abcd), and the line Leader: self to the plain
string self. -/
theorem C7_identifier_keyline_decoding_witness :
    cluster_status ["Cluster id: abcd1234 (abcd)".toList] =
      some [(clusterIdKey, SVal.tup ["abcd1234".toList, "abcd".toList])] ∧
    cluster_status ["Leader: self".toList] =
      some [("leader".toList, SVal.str "self".toList)] := by
  have h1 := (C7_identifier_keyline_decoding [] [] "Cluster id".toList
    " abcd1234 (abcd)".toList (by decide) (by decide) (by decide)).1
    (by decide) "abcd1234".toList "abcd".toList (by decide)
  have h2 := (C7_identifier_keyline_decoding [] [] "Leader".toList
    " self".toList (by decide) (by decide) (by decide)).2
    (by decide) (by decide)
  constructor
  · rw [cluster_status,
      show ("Cluster id: abcd1234 (abcd)".toList : PyStr) =
        "Cluster id".toList ++ ':' :: " abcd1234 (abcd)".toList from by decide]
    simp only [runLines, h1]
    decide
  · rw [cluster_status,
      show ("Leader: self".toList : PyStr) =
        "Leader".toList ++ ':' :: " self".toList from by decide]
    simp only [runLines, h2]
    decide

/-- C8 counterexample: an explicitly supplied empty-string schema does
not override the implied one — Python's or tests truthiness, so the
empty string falls through to the schema map, contradicting the claim
that a supplied schema argument always overrides the implied one. -/
theorem C8_counterexample_empty_schema :
    cluster_status_schema (some []) "ovnnb_db".toList =
      some "OVN_Northbound".toList ∧
    cluster_status_schema (some []) "ovnnb_db".toList ≠ some ([] : PyStr) :=
  ⟨by decide, by decide⟩

/-- C8 amended: target resolution is a pure function of the target
string — ovnnb_db resolves to /var/run/openvswitch/ovnnb_db.ctl with
implied schema OVN_Northbound, ovnsb_db to
/var/run/openvswitch/ovnsb_db.ctl with implied schema OVN_Southbound,
and every other string is used verbatim with no implied schema; a
supplied non-empty schema argument overrides the implied one, but a
supplied empty string is falsy in Python and behaves as if no schema
was supplied. -/
theorem C8_amended_target_resolution :
    ovs_appctl_target "ovnnb_db".toList =
      "/var/run/openvswitch/ovnnb_db.ctl".toList ∧
    schema_map_get "ovnnb_db".toList = some "OVN_Northbound".toList ∧
    ovs_appctl_target "ovnsb_db".toList =
      "/var/run/openvswitch/ovnsb_db.ctl".toList ∧
    schema_map_get "ovnsb_db".toList = some "OVN_Southbound".toList ∧
    (∀ t, t ≠ "ovnnb_db".toList → t ≠ "ovnsb_db".toList →
      ovs_appctl_target t = t ∧ schema_map_get t = none) ∧
    (∀ t, cluster_status_schema none t = schema_map_get t) ∧
    (∀ s t, s ≠ [] → cluster_status_schema (some s) t = some s) := by
  refine ⟨by decide, by decide, by decide, by decide, ?_, ?_, ?_⟩
  · intro t h1 h2
    constructor
    · rw [ovs_appctl_target, if_neg (by tauto)]
    · rw [schema_map_get, if_neg h1, if_neg h2]
  · intro t
    rfl
  · intro s t hs
    simp [cluster_status_schema, hs]

/-- C8 amended witness: a target that is not a short name passes through
verbatim with no schema, and a non-empty supplied schema wins. -/
theorem C8_amended_target_resolution_witness :
    ovs_appctl_target "ovsdb-server".toList = "ovsdb-server".toList ∧
    schema_map_get "ovsdb-server".toList = none ∧
    cluster_status_schema (some "OVN_Northbound".toList) "ovnsb_db".toList =
      some "OVN_Northbound".toList := by
  obtain ⟨-, -, -, -, hother, -, hover⟩ := C8_amended_target_resolution
  obtain ⟨ha, hb⟩ := hother "ovsdb-server".toList (by decide) (by decide)
  exact ⟨ha, hb, hover "OVN_Northbound".toList "ovnsb_db".toList (by decide)⟩

/-- C10: the parser performs no precondition check before appending a
continuation: from any report prefix that leaves the cursor on a field
holding a non-list value (a plain string or an identifier tuple), a
next line beginning with a space makes the whole parse raise (the value
has no append method), rather than ignoring the line or converting the
field to a list. -/
theorem C10_continuation_after_scalar_raises (pre : List PyStr)
    (st : ParseState) (line : PyStr) (post : List PyStr)
    (hpre : runLines ⟨[], []⟩ pre = some st)
    (hk : st.k ≠ [])
    (hval : (∃ s, dictGet st.status st.k = some (SVal.str s)) ∨
            (∃ xs, dictGet st.status st.k = some (SVal.tup xs)))
    (hsp : pyStartsWithSpace line = true) :
    cluster_status (pre ++ line :: post) = none := by
  have hap : dictAppend st.status st.k (pyLStrip line) = none := by
    rcases hval with ⟨s, hs⟩ | ⟨xs, hs⟩
    · exact dictAppend_of_nonlist _ _ _ _ hs (fun ys hy => by cases hy)
    · exact dictAppend_of_nonlist _ _ _ _ hs (fun ys hy => by cases hy)
  have hpl : procLine st line = none := by
    rw [procLine, if_pos (And.intro hk hsp), hap]
    rfl
  rw [cluster_status, runLines_append, hpre]
  simp [runLines, hpl]

/-- C10 witness: Leader: self establishes a string-valued field, and a
following space-indented line makes the parse raise. -/
theorem C10_continuation_after_scalar_raises_witness :
    cluster_status ["Leader: self".toList, " srv-1".toList] = none := by
  have h := C10_continuation_after_scalar_raises ["Leader: self".toList]
    ⟨[("leader".toList, SVal.str "self".toList)], "leader".toList⟩
    " srv-1".toList [] (by decide) (by decide)
    (Or.inl ⟨"self".toList, by decide⟩) (by decide)
  simpa using h
